import Mathlib

/-
Verification of the gupload batching and upload-orchestration engine
(lib/cli.py) against its natural-language specification.

The Python source is shallowly embedded: the filesystem, the CSV reader and
the remote Garmin session are explicit function-valued parameters (`FS`,
`Session`), and each stage of `gupload.gupload` becomes a Lean definition
mirroring the corresponding loop of the source.
-/

namespace Gupload

/-- Index of the last occurrence of a character in a character list
(Python str.rfind restricted to single-character needles). -/
def rfindAux : List Char → Char → Option Nat
  | [], _ => none
  | x :: xs, c =>
    match rfindAux xs c with
    | some i => some (i + 1)
    | none => if x = c then some 0 else none

/-- Python os.path.splitext for POSIX paths: split off the extension at the
last dot of the basename, provided some non-dot character of the basename
precedes that dot (so dotfiles such as ".guploadrc" have no extension). -/
def splitext (p : String) : String × String :=
  let l := p.data
  match rfindAux l '.' with
  | none => (p, "")
  | some dotIndex =>
    let start :=
      match rfindAux l '/' with
      | none => 0
      | some sepIndex => sepIndex + 1
    if start ≤ dotIndex ∧ ((l.drop start).take (dotIndex - start)).any (fun ch => ch ≠ '.') then
      (String.mk (l.take dotIndex), String.mk (l.drop dotIndex))
    else (p, "")

/-- Python str.lower (ASCII, as applied to file extensions in the source). -/
def strLower (s : String) : String := String.mk (s.data.map Char.toLower)

/-- Does the string start with a slash? -/
def startsWithSlash (s : String) : Bool :=
  match s.data with
  | [] => false
  | c :: _ => c == '/'

/-- Does the string end with a slash? -/
def endsWithSlash (s : String) : Bool :=
  match s.data.getLast? with
  | some c => c == '/'
  | none => false

/-- Python os.path.join for POSIX paths, two arguments. -/
def posixJoin (a b : String) : String :=
  if startsWithSlash b then b
  else if a == "" || endsWithSlash a then String.mk (a.data ++ b.data)
  else String.mk (a.data ++ '/' :: b.data)

/-- Modelled from the spec: `uploader.VALID_GARMIN_FILE_EXTENSIONS` lives in
the uploader module, which is not part of the sources under verification.
The spec ("the three formats the remote service accepts") and the source
comment in checkFile ("Valid file extensions are .tcx, .fit, and .gpx")
fix its value. -/
def VALID_GARMIN_FILE_EXTENSIONS : List String := [".tcx", ".fit", ".gpx"]

/-- Python truthiness of an optional string (None and "" are falsy). -/
def truthy : Option String → Bool
  | none => false
  | some s => s != ""

/-- One row of a csv.DictReader over a manifest file: the three columns the
source reads. -/
structure CsvRow where
  filename : String
  name : String
  type : String
deriving DecidableEq, Repr

/-- The filesystem operations the source performs, as an explicit
environment: os.path.isfile, os.path.isdir, glob.glob, os.listdir,
os.path.abspath, and reading a csv manifest. -/
structure FS where
  isFile : String → Bool
  isDir : String → Bool
  glob : String → List String
  listdir : String → List String
  abspath : String → String
  readCSV : String → List CsvRow

/-- The command-line options the resolution stage consumes: positional
paths, the -t type override and the -a name override. -/
structure Options where
  paths : List String
  activityType : Option String
  activityName : Option String
deriving DecidableEq, Repr

/-- workoutTuple from the source: filename, name, type. -/
structure workoutTuple where
  filename : String
  name : Option String
  type : Option String
deriving DecidableEq, Repr

/-- checkFile: the file exists as a regular file and its extension, lowered,
is one of the extensions Garmin Connect accepts. -/
def checkFile (fs : FS) (filename : String) : Bool :=
  if fs.isFile filename then
    let extension := strLower (splitext filename).2
    VALID_GARMIN_FILE_EXTENSIONS.contains extension
  else false

/-- checkListFile: the extension, lowered, is ".csv" and the file exists as
a regular file. -/
def checkListFile (fs : FS) (filename : String) : Bool :=
  let extension := strLower (splitext filename).2
  extension == ".csv" && fs.isFile filename

/-- The transient classification of one glob-expanded candidate, §3 of the
spec. -/
inductive ClassifiedPath where
  | activityFile (p : String)
  | manifestFile (p : String)
  | directory (p : String)
  | invalid
deriving DecidableEq, Repr

/-- The if/elif chain of the argument-sorting loop. Note the asymmetry of
the source: checkFile is applied to the unexpanded argument `fileArg`
(and appends `fileArg`), while checkListFile and isdir inspect the
expanded candidate `wildcard`. -/
def classify (fs : FS) (fileArg wildcard : String) : ClassifiedPath :=
  if checkFile fs fileArg then .activityFile fileArg
  else if checkListFile fs wildcard then .manifestFile wildcard
  else if fs.isDir wildcard then .directory (fs.abspath wildcard)
  else .invalid

/-- One step of the argument-sorting loop: route a candidate into the
(filenames, listfiles, dirnames) accumulator. -/
def classifyStep (fs : FS) (fileArg : String)
    (acc : List String × List String × List String) (wildcard : String) :
    List String × List String × List String :=
  match classify fs fileArg wildcard with
  | .activityFile p => (acc.1 ++ [p], acc.2.1, acc.2.2)
  | .manifestFile p => (acc.1, acc.2.1 ++ [p], acc.2.2)
  | .directory p => (acc.1, acc.2.1, acc.2.2 ++ [p])
  | .invalid => acc

/-- The first loop of gupload: glob-expand each path argument and sort the
candidates into fitness filenames, csv list files and directory names. -/
def sortArgs (fs : FS) (paths : List String) : List String × List String × List String :=
  paths.foldl (fun acc fileArg => (fs.glob fileArg).foldl (classifyStep fs fileArg) acc)
    ([], [], [])

/-- The second loop of gupload: for each directory, append every direct
child that passes checkFile (no recursion, no csv search). -/
def addDirFiles (fs : FS) (filenames : List String) (dirnames : List String) : List String :=
  dirnames.foldl (fun fns dirname =>
    (fs.listdir dirname).foldl (fun fns filename =>
      let filename := posixJoin dirname filename
      if checkFile fs filename then fns ++ [filename] else fns) fns) filenames

/-- The csv loop of gupload: for each list file, append one workout per row
whose filename passes checkFile. -/
def addListFileWorkouts (fs : FS) (workouts : List workoutTuple) (listfiles : List String) :
    List workoutTuple :=
  listfiles.foldl (fun ws listfile =>
    (fs.readCSV listfile).foldl (fun ws row =>
      if checkFile fs row.filename then
        ws ++ [⟨row.filename, some row.name, some row.type⟩]
      else ws) ws) workouts

/-- The full list of fitness filenames after argument sorting and directory
expansion (the source's `filenames` variable just before workouts are
built). -/
def activityFilenames (fs : FS) (o : Options) : List String :=
  let t := sortArgs fs o.paths
  addDirFiles fs t.1 t.2.2

/-- The list files collected by argument sorting (the source's
`listfiles`). -/
def listfilesOf (fs : FS) (o : Options) : List String :=
  (sortArgs fs o.paths).2.1

/-- The activity-name override after the singleton rule: dropped when the
number of fitness filenames differs from one and a (truthy) name was
given. -/
def effectiveActivityName (fs : FS) (o : Options) : Option String :=
  if (activityFilenames fs o).length != 1 && truthy o.activityName then none
  else o.activityName

/-- The resolution phase of gupload: build one workout per fitness filename
with the effective name and the type override, then append the
manifest-derived workouts. -/
def resolveWorkouts (fs : FS) (o : Options) : List workoutTuple :=
  let filenames := activityFilenames fs o
  let activityName := effectiveActivityName fs o
  let workouts := filenames.foldl
    (fun ws filename => ws ++ [⟨filename, activityName, o.activityType⟩])
    ([] : List workoutTuple)
  addListFileWorkouts fs workouts (listfilesOf fs o)

/-- The four operations of the remote Garmin session the orchestration
relies on (uploader.UploadGarmin, an external collaborator, §6 of the
spec): login, upload_file returning (status, id_msg), and the two
annotation calls. -/
structure Session where
  login : String → String → Bool
  upload_file : String → String × String
  set_workout_name : String → String → Bool
  set_activity_type : String → String → Bool

/-- One line of the per-job status report: filename, remote id, upload
status, name outcome, type outcome. -/
structure JobStatus where
  filename : String
  id_msg : String
  status : String
  nstat : String
  tstat : String
deriving DecidableEq, Repr

/-- A remote-session interaction, for stating when the session is (not)
touched. -/
inductive Event where
  | login (username password : String)
  | upload (path : String)
  | setName (id name : String)
  | setType (id ty : String)
deriving DecidableEq, Repr

def isLoginEvent : Event → Bool
  | .login _ _ => true
  | _ => false

def isUploadEvent : Event → Bool
  | .upload _ => true
  | _ => false

/-- The body of the upload loop for one workout: upload, then on SUCCESS
set the name and the type when they are (truthy) present, recording "N/A"
for absent steps and "FAIL!" for failed annotation calls. -/
def uploadOne (g : Session) (workout : workoutTuple) : JobStatus :=
  let r := g.upload_file workout.filename
  if r.1 == "SUCCESS" then
    let nstat :=
      if truthy workout.name then
        if g.set_workout_name r.2 (workout.name.getD "") then workout.name.getD "" else "FAIL!"
      else "N/A"
    let tstat :=
      if truthy workout.type then
        if g.set_activity_type r.2 (workout.type.getD "") then workout.type.getD "" else "FAIL!"
      else "N/A"
    ⟨workout.filename, r.2, r.1, nstat, tstat⟩
  else ⟨workout.filename, r.2, r.1, "N/A", "N/A"⟩

/-- The session interactions the loop body performs for one workout, in
call order. -/
def uploadOneTrace (g : Session) (workout : workoutTuple) : List Event :=
  let r := g.upload_file workout.filename
  Event.upload workout.filename ::
    (if r.1 == "SUCCESS" then
      (if truthy workout.name then [Event.setName r.2 (workout.name.getD "")] else []) ++
        (if truthy workout.type then [Event.setType r.2 (workout.type.getD "")] else [])
    else [])

/-- The upload loop of gupload: one status record per workout, in order. -/
def uploadAll (g : Session) (workouts : List workoutTuple) : List JobStatus :=
  workouts.foldl (fun acc workout => acc ++ [uploadOne g workout]) []

/-- The whole run after credential parsing: resolve the batch, fail on an
empty batch, log in once, then run the upload loop. Returns the outcome
together with the list of session interactions performed. -/
def guploadRun (fs : FS) (g : Session) (o : Options) (username password : String) :
    Except String (List JobStatus) × List Event :=
  let workouts := resolveWorkouts fs o
  if workouts.length == 0 then
    (Except.error "No valid files.", [])
  else if g.login username password = false then
    (Except.error "LOGIN FAILED - please verify your login credentials",
     [Event.login username password])
  else
    (Except.ok (uploadAll g workouts),
     Event.login username password :: workouts.flatMap (uploadOneTrace g))

/-! ### Characterizations of the accumulator loops -/

/-- Componentwise append on the (filenames, listfiles, dirnames) triple. -/
def tapp (a b : List String × List String × List String) :
    List String × List String × List String :=
  (a.1 ++ b.1, a.2.1 ++ b.2.1, a.2.2 ++ b.2.2)

/-- The contribution of a single glob-expanded candidate to the three
accumulators. -/
def wildcardContrib (fs : FS) (fileArg wildcard : String) :
    List String × List String × List String :=
  match classify fs fileArg wildcard with
  | .activityFile p => ([p], [], [])
  | .manifestFile p => ([], [p], [])
  | .directory p => ([], [], [p])
  | .invalid => ([], [], [])

/-- The contribution of a list of candidates of one argument. -/
def wildcardsContrib (fs : FS) (fileArg : String) (ws : List String) :
    List String × List String × List String :=
  (ws.flatMap (fun w => (wildcardContrib fs fileArg w).1),
   ws.flatMap (fun w => (wildcardContrib fs fileArg w).2.1),
   ws.flatMap (fun w => (wildcardContrib fs fileArg w).2.2))

/-- The contribution of one whole path argument. -/
def argContrib (fs : FS) (fileArg : String) : List String × List String × List String :=
  wildcardsContrib fs fileArg (fs.glob fileArg)

theorem tapp_nil (a : List String × List String × List String) : tapp a ([], [], []) = a := by
  simp [tapp]

theorem tapp_assoc (a b c : List String × List String × List String) :
    tapp (tapp a b) c = tapp a (tapp b c) := by
  simp [tapp]

theorem classifyStep_eq (fs : FS) (fileArg : String)
    (acc : List String × List String × List String) (w : String) :
    classifyStep fs fileArg acc w = tapp acc (wildcardContrib fs fileArg w) := by
  unfold classifyStep wildcardContrib tapp
  cases classify fs fileArg w <;> simp

theorem foldl_classifyStep (fs : FS) (fileArg : String) (ws : List String)
    (acc : List String × List String × List String) :
    ws.foldl (classifyStep fs fileArg) acc = tapp acc (wildcardsContrib fs fileArg ws) := by
  induction ws generalizing acc with
  | nil => simp [wildcardsContrib, tapp_nil]
  | cons w ws ih =>
    rw [List.foldl_cons, classifyStep_eq, ih]
    simp [wildcardsContrib, tapp, List.append_assoc]

theorem sortArgs_eq (fs : FS) (paths : List String) :
    sortArgs fs paths =
      (paths.flatMap (fun a => (argContrib fs a).1),
       paths.flatMap (fun a => (argContrib fs a).2.1),
       paths.flatMap (fun a => (argContrib fs a).2.2)) := by
  have key : ∀ (ps : List String) (acc : List String × List String × List String),
      ps.foldl (fun acc fileArg => (fs.glob fileArg).foldl (classifyStep fs fileArg) acc) acc
        = tapp acc
          (ps.flatMap (fun a => (argContrib fs a).1),
           ps.flatMap (fun a => (argContrib fs a).2.1),
           ps.flatMap (fun a => (argContrib fs a).2.2)) := by
    intro ps
    induction ps with
    | nil => intro acc; simp [tapp_nil]
    | cons a ps ih =>
      intro acc
      rw [List.foldl_cons, foldl_classifyStep, ih]
      simp [argContrib, tapp, List.append_assoc]
  rw [sortArgs, key]
  simp [tapp]

theorem flatMap_const_singleton {α : Type} (a : α) (ws : List String) :
    ws.flatMap (fun _ => [a]) = ws.map (fun _ => a) := by
  induction ws with
  | nil => rfl
  | cons w ws ih => simp [ih]

theorem flatMap_if_singleton (P : String → Bool) (ws : List String) :
    ws.flatMap (fun w => if P w then [w] else []) = ws.filter P := by
  induction ws with
  | nil => rfl
  | cons w ws ih =>
    by_cases h : P w = true <;> simp [h, ih, List.filter_cons]

theorem flatMap_if_if_map (P Q : String → Bool) (f : String → String) (ws : List String) :
    ws.flatMap (fun w => if P w then [] else if Q w then [f w] else [])
      = ((ws.filter (fun w => !P w && Q w)).map f) := by
  induction ws with
  | nil => rfl
  | cons w ws ih =>
    by_cases hP : P w = true
    · simp [hP, ih, List.filter_cons]
    · by_cases hQ : Q w = true <;>
        simp [hP, hQ, ih, List.filter_cons]

/-- The contribution of an argument that passes checkFile: the unexpanded
argument itself, once per glob match. -/
theorem argContrib_pos (fs : FS) (a : String) (h : checkFile fs a = true) :
    argContrib fs a = ((fs.glob a).map (fun _ => a), [], []) := by
  unfold argContrib wildcardsContrib wildcardContrib classify
  rw [h]
  simp [flatMap_const_singleton]

/-- The contribution of an argument that fails checkFile: candidates are
routed by checkListFile first, then isdir (made absolute). -/
theorem argContrib_neg (fs : FS) (a : String) (h : checkFile fs a = false) :
    argContrib fs a =
      ([], (fs.glob a).filter (fun w => checkListFile fs w),
       ((fs.glob a).filter (fun w => !checkListFile fs w && fs.isDir w)).map fs.abspath) := by
  unfold argContrib wildcardsContrib wildcardContrib classify
  rw [h]
  simp only [Bool.false_eq_true, if_false]
  refine Prod.ext ?_ (Prod.ext ?_ ?_)
  · simp only
    induction fs.glob a with
    | nil => rfl
    | cons w ws ih =>
      by_cases h1 : checkListFile fs w = true <;> by_cases h2 : fs.isDir w = true <;>
        simp [h1, h2, ih]
  · simp only
    rw [← flatMap_if_singleton (fun w => checkListFile fs w) (fs.glob a)]
    congr 1
    funext w
    by_cases h1 : checkListFile fs w = true <;> by_cases h2 : fs.isDir w = true <;>
      simp [h1, h2]
  · simp only
    rw [← flatMap_if_if_map (fun w => checkListFile fs w) fs.isDir fs.abspath (fs.glob a)]
    congr 1
    funext w
    by_cases h1 : checkListFile fs w = true <;> by_cases h2 : fs.isDir w = true <;>
      simp [h1, h2]

theorem addDirFiles_inner (fs : FS) (dirname : String) (children : List String)
    (acc : List String) :
    children.foldl (fun fns filename =>
        let filename := posixJoin dirname filename
        if checkFile fs filename then fns ++ [filename] else fns) acc
      = acc ++ (children.map (posixJoin dirname)).filter (checkFile fs) := by
  induction children generalizing acc with
  | nil => simp
  | cons c cs ih =>
    by_cases h : checkFile fs (posixJoin dirname c) = true <;>
      simp [h, ih, List.filter_cons]

theorem addDirFiles_eq (fs : FS) (filenames dirnames : List String) :
    addDirFiles fs filenames dirnames
      = filenames ++ dirnames.flatMap
          (fun d => ((fs.listdir d).map (posixJoin d)).filter (checkFile fs)) := by
  induction dirnames generalizing filenames with
  | nil => simp [addDirFiles]
  | cons d ds ih =>
    rw [addDirFiles, List.foldl_cons]
    have step : (fs.listdir d).foldl (fun fns filename =>
        let filename := posixJoin d filename
        if checkFile fs filename then fns ++ [filename] else fns) filenames
      = filenames ++ ((fs.listdir d).map (posixJoin d)).filter (checkFile fs) :=
      addDirFiles_inner fs d (fs.listdir d) filenames
    rw [step]
    have tail := ih (filenames ++ ((fs.listdir d).map (posixJoin d)).filter (checkFile fs))
    rw [addDirFiles] at tail
    rw [tail]
    simp [List.append_assoc]

/-- The workout a manifest row yields, when its filename validates. -/
def rowJob (fs : FS) (row : CsvRow) : Option workoutTuple :=
  if checkFile fs row.filename then some ⟨row.filename, some row.name, some row.type⟩
  else none

theorem addListFileWorkouts_inner (fs : FS) (rows : List CsvRow) (acc : List workoutTuple) :
    rows.foldl (fun ws row =>
        if checkFile fs row.filename then
          ws ++ [⟨row.filename, some row.name, some row.type⟩]
        else ws) acc
      = acc ++ rows.filterMap (rowJob fs) := by
  induction rows generalizing acc with
  | nil => simp
  | cons r rs ih =>
    by_cases h : checkFile fs r.filename = true <;>
      simp [h, ih, rowJob, List.filterMap_cons]

theorem addListFileWorkouts_eq (fs : FS) (workouts : List workoutTuple)
    (listfiles : List String) :
    addListFileWorkouts fs workouts listfiles
      = workouts ++ listfiles.flatMap (fun lf => (fs.readCSV lf).filterMap (rowJob fs)) := by
  induction listfiles generalizing workouts with
  | nil => simp [addListFileWorkouts]
  | cons lf lfs ih =>
    rw [addListFileWorkouts, List.foldl_cons, addListFileWorkouts_inner]
    have tail := ih (workouts ++ (fs.readCSV lf).filterMap (rowJob fs))
    rw [addListFileWorkouts] at tail
    rw [tail]
    simp [List.append_assoc]

theorem foldl_push_eq_map {α β : Type} (f : α → β) (l : List α) (acc : List β) :
    l.foldl (fun a x => a ++ [f x]) acc = acc ++ l.map f := by
  induction l generalizing acc with
  | nil => simp
  | cons x xs ih => simp [ih]

/-- The resolution phase, characterized: activity jobs in order, then
manifest jobs in argument order and row order, rows filtered through
checkFile. -/
theorem resolveWorkouts_eq (fs : FS) (o : Options) :
    resolveWorkouts fs o
      = (activityFilenames fs o).map
          (fun filename => ⟨filename, effectiveActivityName fs o, o.activityType⟩)
        ++ (listfilesOf fs o).flatMap (fun lf => (fs.readCSV lf).filterMap (rowJob fs)) := by
  rw [resolveWorkouts, addListFileWorkouts_eq, foldl_push_eq_map]
  simp

theorem uploadAll_eq_map (g : Session) (workouts : List workoutTuple) :
    uploadAll g workouts = workouts.map (uploadOne g) := by
  rw [uploadAll, foldl_push_eq_map]
  simp

/-! ### Claim theorems -/

/-- C7: checkFile holds exactly when the path is a regular file whose
lowered extension is in the accepted set, and checkListFile holds exactly
when the lowered extension is ".csv" and the path is a regular file; both
are total Boolean checks, so missing files and wrong extensions yield
false rather than an exception. -/
theorem checkFile_checkListFile_spec (fs : FS) (p : String) :
    (checkFile fs p = true ↔
      fs.isFile p = true ∧ strLower (splitext p).2 ∈ VALID_GARMIN_FILE_EXTENSIONS) ∧
    (checkListFile fs p = true ↔
      strLower (splitext p).2 = ".csv" ∧ fs.isFile p = true) := by
  constructor
  · unfold checkFile
    by_cases h : fs.isFile p = true
    · simp only [h, if_true, true_and]
      exact List.elem_iff
    · simp [h]
  · unfold checkListFile
    simp [Bool.and_eq_true, beq_iff_eq]

/-- C8: directory expansion appends, for each directory in order, exactly
its direct children (joined to the directory, no recursion) that pass
checkFile, in enumeration order; a child whose lowered extension is ".csv"
always fails checkFile, so manifest files inside directories are never
collected. -/
theorem addDirFiles_spec (fs : FS) (filenames dirnames : List String) :
    addDirFiles fs filenames dirnames
      = filenames ++ dirnames.flatMap
          (fun d => ((fs.listdir d).map (posixJoin d)).filter (checkFile fs)) ∧
    (∀ d c, strLower (splitext (posixJoin d c)).2 = ".csv" →
      checkFile fs (posixJoin d c) = false) := by
  constructor
  · exact addDirFiles_eq fs filenames dirnames
  · intro d c h
    unfold checkFile
    by_cases hf : fs.isFile (posixJoin d c) = true
    · simp only [hf, if_true, h]
      decide
    · simp [hf]

/-- C9: the resolved batch is the activity-derived jobs (in order, carrying
the effective name and the type override) followed by the manifest-derived
jobs, in manifest argument order and row order; a row whose filename fails
checkFile contributes no job, and a passing row contributes exactly one
job carrying the row's filename, name and type. -/
theorem resolveWorkouts_decomposition (fs : FS) (o : Options) :
    resolveWorkouts fs o
      = (activityFilenames fs o).map
          (fun filename =>
            ⟨filename, effectiveActivityName fs o, o.activityType⟩)
        ++ (listfilesOf fs o).flatMap (fun lf =>
            (fs.readCSV lf).filterMap (fun row =>
              if checkFile fs row.filename then
                some ⟨row.filename, some row.name, some row.type⟩
              else none)) := by
  rw [resolveWorkouts_eq]
  rfl

/-- C6: for each argument, checkFile is evaluated on the original
unexpanded argument and, when it passes, the argument itself is collected
once per glob match; when it fails, each expanded candidate is tested with
checkListFile first and isdir second; a glob that matches nothing
contributes nothing, and arguments contribute independently in order. -/
theorem sortArgs_classification (fs : FS) (arg : String) (paths : List String) :
    (fs.glob arg = [] → sortArgs fs [arg] = ([], [], [])) ∧
    (checkFile fs arg = true →
      sortArgs fs [arg] = ((fs.glob arg).map (fun _ => arg), [], [])) ∧
    (checkFile fs arg = false →
      sortArgs fs [arg]
        = ([], (fs.glob arg).filter (fun w => checkListFile fs w),
           ((fs.glob arg).filter (fun w => !checkListFile fs w && fs.isDir w)).map
             fs.abspath)) ∧
    sortArgs fs (paths ++ [arg]) = tapp (sortArgs fs paths) (sortArgs fs [arg]) := by
  have single : sortArgs fs [arg] = argContrib fs arg := by
    rw [sortArgs_eq]
    simp [argContrib]
  refine ⟨?_, ?_, ?_, ?_⟩
  · intro h
    rw [single]
    simp [argContrib, wildcardsContrib, h]
  · intro h
    rw [single, argContrib_pos fs arg h]
  · intro h
    rw [single, argContrib_neg fs arg h]
  · rw [sortArgs_eq fs (paths ++ [arg]), sortArgs_eq fs paths, single]
    simp [tapp, argContrib]

/-- C10: the activity-type override is applied to every job built from the
activity filenames (whatever the batch size), while every manifest-derived
job carries the type of its csv row. -/
theorem typeOverride_spec (fs : FS) (o : Options) :
    (∀ w ∈ (resolveWorkouts fs o).take (activityFilenames fs o).length,
      w.type = o.activityType) ∧
    (∀ w ∈ (resolveWorkouts fs o).drop (activityFilenames fs o).length,
      ∃ lf ∈ listfilesOf fs o, ∃ row ∈ fs.readCSV lf,
        checkFile fs row.filename = true ∧
        w = ⟨row.filename, some row.name, some row.type⟩) := by
  have hlen : ((activityFilenames fs o).map
      (fun filename =>
        (⟨filename, effectiveActivityName fs o, o.activityType⟩ : workoutTuple))).length
      = (activityFilenames fs o).length := by simp
  constructor
  · intro w hw
    rw [resolveWorkouts_eq, List.take_left' hlen] at hw
    obtain ⟨f, _, rfl⟩ := List.mem_map.mp hw
    rfl
  · intro w hw
    rw [resolveWorkouts_eq, List.drop_left' hlen] at hw
    obtain ⟨lf, hlf, hw⟩ := List.mem_flatMap.mp hw
    obtain ⟨row, hrow, hjob⟩ := List.mem_filterMap.mp hw
    refine ⟨lf, hlf, row, hrow, ?_⟩
    unfold rowJob at hjob
    by_cases h : checkFile fs row.filename = true
    · rw [if_pos h] at hjob
      exact ⟨h, (Option.some_inj.mp hjob).symm⟩
    · rw [if_neg h] at hjob
      exact absurd hjob (by simp)

/-- C4: when the number of accumulated activity filenames differs from one
and a (non-empty) name override was given, the override is discarded
before workouts are built — the whole resolution is the one of a run with
no override, and every activity-derived job is nameless; when exactly one
activity filename was accumulated, the override is kept and becomes the
first job's name. -/
theorem nameOverride_scope (fs : FS) (o : Options) (n : String) :
    ((activityFilenames fs o).length ≠ 1 → o.activityName = some n → n ≠ "" →
      effectiveActivityName fs o = none ∧
      resolveWorkouts fs o = resolveWorkouts fs ⟨o.paths, o.activityType, none⟩ ∧
      ∀ w ∈ (resolveWorkouts fs o).take (activityFilenames fs o).length, w.name = none) ∧
    ((activityFilenames fs o).length = 1 →
      effectiveActivityName fs o = o.activityName ∧
      ((resolveWorkouts fs o).head?).map workoutTuple.name = some o.activityName) := by
  constructor
  · intro hlen hname hne
    have ht : truthy o.activityName = true := by
      rw [hname]
      simp [truthy]
      exact hne
    have e1 : effectiveActivityName fs o = none := by
      simp [effectiveActivityName, ht, bne_iff_ne, hlen]
    have e2 : effectiveActivityName fs ⟨o.paths, o.activityType, none⟩ = none := by
      simp [effectiveActivityName, truthy]
    refine ⟨e1, ?_, ?_⟩
    · rw [resolveWorkouts_eq, resolveWorkouts_eq, e1, e2]
      rfl
    · intro w hw
      have hlenmap : ((activityFilenames fs o).map
          (fun filename =>
            (⟨filename, effectiveActivityName fs o, o.activityType⟩ : workoutTuple))).length
          = (activityFilenames fs o).length := by simp
      rw [resolveWorkouts_eq, List.take_left' hlenmap] at hw
      obtain ⟨f, _, rfl⟩ := List.mem_map.mp hw
      exact e1
  · intro hlen
    have e1 : effectiveActivityName fs o = o.activityName := by
      simp [effectiveActivityName, hlen]
    obtain ⟨a, ha⟩ := List.length_eq_one.mp hlen
    refine ⟨e1, ?_⟩
    rw [resolveWorkouts_eq, ha]
    simp [e1]

/-- Concrete environment for the C5 counterexample: one fitness file given
directly on the command line, plus a manifest whose single row names
another valid fitness file. -/
def fsC5 : FS :=
  ⟨fun p => p == "a.fit" || p == "m.csv" || p == "b.fit",
   fun _ => false,
   fun p => if p == "a.fit" || p == "m.csv" then [p] else [],
   fun _ => [],
   fun p => p,
   fun p => if p == "m.csv" then [⟨"b.fit", "RowName", "running"⟩] else []⟩

/-- Options for the C5 counterexample: both paths, with name override "X". -/
def optsC5 : Options := ⟨["a.fit", "m.csv"], none, some "X"⟩

/-- C5, counterexample: with one direct fitness file plus a one-row
manifest, the whole batch has two jobs and the command-line override "X"
is nevertheless applied to the first job — the source keeps the override
whenever exactly one job came from the activity filenames, regardless of
how many manifest jobs exist. -/
theorem nameOverride_multi_batch_cex :
    optsC5.activityName = some "X" ∧
    (resolveWorkouts fsC5 optsC5).length = 2 ∧
    ((resolveWorkouts fsC5 optsC5)[0]?).map workoutTuple.name = some (some "X") := by
  decide

/-- C5, amended: a job's displayName is (truthily) set only when the job is
manifest-derived, or when it carries the command-line override and exactly
one job was derived from the activity filenames — manifest-derived jobs
are not counted, so an override can yield a named job inside a batch of
total size greater than one. -/
theorem displayName_invariant_amended (fs : FS) (o : Options) (i : Nat) (w : workoutTuple)
    (h : (resolveWorkouts fs o)[i]? = some w) (ht : truthy w.name = true) :
    (activityFilenames fs o).length ≤ i ∨
      ((activityFilenames fs o).length = 1 ∧ w.name = o.activityName) := by
  by_cases hi : i < (activityFilenames fs o).length
  · right
    rw [resolveWorkouts_eq] at h
    have hlt : i < ((activityFilenames fs o).map
        (fun filename =>
          (⟨filename, effectiveActivityName fs o, o.activityType⟩ : workoutTuple))).length := by
      simpa using hi
    rw [List.getElem?_append_left hlt, List.getElem?_map] at h
    obtain ⟨f, _, hw⟩ := Option.map_eq_some'.mp h
    have hwname : w.name = effectiveActivityName fs o := by
      rw [← hw]
    rw [hwname] at ht
    unfold effectiveActivityName at hwname ht
    by_cases hcond :
        ((activityFilenames fs o).length != 1 && truthy o.activityName) = true
    · rw [if_pos hcond] at ht
      exact absurd ht (by simp [truthy])
    · rw [if_neg hcond] at hwname ht
      have hand := (Bool.and_eq_false_iff).mp (Bool.not_eq_true _ ▸ hcond)
      rcases hand with hb | hb
      · have : (activityFilenames fs o).length = 1 := by
          by_contra hne
          exact absurd (bne_iff_ne.mpr hne) (by simp [hb])
        exact ⟨this, hwname⟩
      · exact absurd ht (by simp [hb])
  · left
    omega

/-- C1: the upload loop yields exactly one status per workout, in order;
each status is a function of its own workout alone, so replacing workout k
(for instance by one whose upload or annotation fails) leaves every other
status unchanged and never aborts the loop; and a workout whose upload
status is not SUCCESS gets "N/A" for both its name and type outcomes. -/
theorem uploadAll_isolation (g : Session) (ws : List workoutTuple) :
    (uploadAll g ws).length = ws.length ∧
    (∀ i : Nat, (uploadAll g ws)[i]? = ws[i]?.map (uploadOne g)) ∧
    (∀ (k : Nat) (w : workoutTuple) (j : Nat), j ≠ k →
      (uploadAll g (ws.set k w))[j]? = (uploadAll g ws)[j]?) ∧
    (∀ w : workoutTuple, (g.upload_file w.filename).1 ≠ "SUCCESS" →
      (uploadOne g w).nstat = "N/A" ∧ (uploadOne g w).tstat = "N/A") := by
  refine ⟨?_, ?_, ?_, ?_⟩
  · simp [uploadAll_eq_map]
  · intro i
    simp [uploadAll_eq_map]
  · intro k w j hj
    rw [uploadAll_eq_map, uploadAll_eq_map, List.map_set]
    exact List.getElem?_set_ne (Ne.symm hj)
  · intro w hw
    have hb : ((g.upload_file w.filename).1 == "SUCCESS") = false := by
      simp [hw]
    simp [uploadOne, hb]

/-- C2: an empty resolved batch makes the run fail with the empty-batch
error before any session interaction: the result is the fatal error and
the interaction trace is empty (no login, no upload). -/
theorem guploadRun_empty_batch (fs : FS) (g : Session) (o : Options) (u p : String)
    (h : resolveWorkouts fs o = []) :
    (guploadRun fs g o u p).1 = Except.error "No valid files." ∧
    (guploadRun fs g o u p).2 = ([] : List Event) := by
  simp [guploadRun, h]

theorem uploadOneTrace_no_login (g : Session) (w : workoutTuple) :
    (uploadOneTrace g w).filter isLoginEvent = [] := by
  unfold uploadOneTrace
  by_cases h1 : ((g.upload_file w.filename).1 == "SUCCESS") = true <;>
    by_cases h2 : truthy w.name = true <;>
      by_cases h3 : truthy w.type = true <;>
        simp [h1, h2, h3, isLoginEvent]

theorem flatMap_traces_no_login (g : Session) (ws : List workoutTuple) :
    (ws.flatMap (uploadOneTrace g)).filter isLoginEvent = [] := by
  induction ws with
  | nil => rfl
  | cons w ws ih => simp [List.filter_append, uploadOneTrace_no_login, ih]

/-- C3: on a non-empty batch the run logs in exactly once, as its very
first session interaction; when login returns false the run fails with the
fatal login error, performs no upload, and produces no status records. -/
theorem guploadRun_login_once (fs : FS) (g : Session) (o : Options) (u p : String)
    (h : resolveWorkouts fs o ≠ []) :
    ((guploadRun fs g o u p).2.filter isLoginEvent = [Event.login u p]) ∧
    ((guploadRun fs g o u p).2.head? = some (Event.login u p)) ∧
    (g.login u p = false →
      (guploadRun fs g o u p).1
        = Except.error "LOGIN FAILED - please verify your login credentials" ∧
      (guploadRun fs g o u p).2.filter isUploadEvent = [] ∧
      ∀ statuses : List JobStatus, (guploadRun fs g o u p).1 ≠ Except.ok statuses) := by
  have hne : ((resolveWorkouts fs o).length == 0) = false := by
    simp [List.length_eq_zero, h]
  by_cases hl : g.login u p = false
  · refine ⟨?_, ?_, ?_⟩ <;> simp [guploadRun, hne, hl, isLoginEvent, isUploadEvent]
  · refine ⟨?_, ?_, ?_⟩
    · simp [guploadRun, hne, hl, isLoginEvent, flatMap_traces_no_login]
    · simp [guploadRun, hne, hl]
    · intro hcon
      exact absurd hcon hl

/-! ### Concrete environments and witnesses -/

/-- A session whose upload fails exactly on "bad.fit". -/
def gW : Session :=
  ⟨fun _ _ => true,
   fun p => if p == "bad.fit" then ("FAIL", "upload error") else ("SUCCESS", "id1"),
   fun _ _ => true,
   fun _ _ => true⟩

/-- A session whose login always fails. -/
def gFail : Session :=
  ⟨fun _ _ => false,
   fun _ => ("SUCCESS", "id1"),
   fun _ _ => true,
   fun _ _ => true⟩

/-- An empty filesystem. -/
def fsEmpty : FS :=
  ⟨fun _ => false, fun _ => false, fun _ => [], fun _ => [], fun p => p, fun _ => []⟩

/-- Options with no paths at all. -/
def optsEmpty : Options := ⟨[], none, none⟩

/-- A filesystem holding two fitness files. -/
def fs4 : FS :=
  ⟨fun p => p == "a.fit" || p == "b.fit",
   fun _ => false,
   fun p => if p == "a.fit" || p == "b.fit" then [p] else [],
   fun _ => [],
   fun p => p,
   fun _ => []⟩

/-- Options naming both fitness files of fs4, with name override "X". -/
def opts4 : Options := ⟨["a.fit", "b.fit"], none, some "X"⟩

/-- A filesystem with a directory "d" holding one fitness file and one csv
file. -/
def fsD : FS :=
  ⟨fun p => p == "d/a.fit" || p == "d/list.csv" || p == "x.fit",
   fun p => p == "d",
   fun p => if p == "d" then [p] else [],
   fun p => if p == "d" then ["a.fit", "list.csv"] else [],
   fun p => p,
   fun _ => []⟩

def wGood : workoutTuple := ⟨"a.fit", some "X", none⟩

def wBad : workoutTuple := ⟨"bad.fit", some "Y", some "running"⟩

/-- Witness for C1 at a concrete session and two-job batch, with a job
whose upload fails. -/
theorem uploadAll_isolation_witness :
    (uploadAll gW [wGood, wBad]).length = 2 ∧
    (uploadAll gW ([wGood, wBad].set 1 wBad))[0]? = (uploadAll gW [wGood, wBad])[0]? ∧
    (uploadOne gW wBad).nstat = "N/A" ∧ (uploadOne gW wBad).tstat = "N/A" := by
  have h := uploadAll_isolation gW [wGood, wBad]
  exact ⟨h.1, h.2.2.1 1 wBad 0 (by decide), (h.2.2.2 wBad (by decide)).1,
    (h.2.2.2 wBad (by decide)).2⟩

/-- Witness for C2 at an empty argument list. -/
theorem guploadRun_empty_batch_witness :
    (guploadRun fsEmpty gW optsEmpty "u" "pw").1 = Except.error "No valid files." ∧
    (guploadRun fsEmpty gW optsEmpty "u" "pw").2 = ([] : List Event) :=
  guploadRun_empty_batch fsEmpty gW optsEmpty "u" "pw" rfl

/-- Witness for C3 at a non-empty batch with a failing login. -/
theorem guploadRun_login_once_witness :
    ((guploadRun fsC5 gFail optsC5 "u" "pw").2.filter isLoginEvent
      = [Event.login "u" "pw"]) ∧
    ((guploadRun fsC5 gFail optsC5 "u" "pw").2.head? = some (Event.login "u" "pw")) ∧
    (guploadRun fsC5 gFail optsC5 "u" "pw").1
      = Except.error "LOGIN FAILED - please verify your login credentials" := by
  have h := guploadRun_login_once fsC5 gFail optsC5 "u" "pw" (by decide)
  exact ⟨h.1, h.2.1, (h.2.2 rfl).1⟩

/-- Witness for C4: a two-file batch drops the override, a one-file batch
keeps it. -/
theorem nameOverride_scope_witness :
    (effectiveActivityName fs4 opts4 = none ∧
      resolveWorkouts fs4 opts4
        = resolveWorkouts fs4 ⟨opts4.paths, opts4.activityType, none⟩) ∧
    (effectiveActivityName fsC5 optsC5 = optsC5.activityName ∧
      ((resolveWorkouts fsC5 optsC5).head?).map workoutTuple.name
        = some optsC5.activityName) := by
  have h1 := (nameOverride_scope fs4 opts4 "X").1 (by decide) rfl (by decide)
  have h2 := (nameOverride_scope fsC5 optsC5 "X").2 (by decide)
  exact ⟨⟨h1.1, h1.2.1⟩, h2⟩

/-- Witness for the amended C5 invariant at the named first job of the
counterexample batch. -/
theorem displayName_invariant_witness :
    (activityFilenames fsC5 optsC5).length ≤ 0 ∨
      ((activityFilenames fsC5 optsC5).length = 1 ∧
        (⟨"a.fit", some "X", none⟩ : workoutTuple).name = optsC5.activityName) :=
  displayName_invariant_amended fsC5 optsC5 0 ⟨"a.fit", some "X", none⟩ (by decide)
    (by decide)

/-- Witness for C6: a non-matching pattern, a valid fitness file and a csv
list file. -/
theorem sortArgs_classification_witness :
    sortArgs fsC5 ["zzz"] = ([], [], []) ∧
    sortArgs fsC5 ["a.fit"] = (["a.fit"], [], []) ∧
    sortArgs fsC5 ["m.csv"] = ([], ["m.csv"], []) := by
  have hz := sortArgs_classification fsC5 "zzz" []
  have ha := sortArgs_classification fsC5 "a.fit" []
  have hm := sortArgs_classification fsC5 "m.csv" []
  exact ⟨hz.1 (by decide), (ha.2.1 (by decide)).trans (by decide),
    (hm.2.2.1 (by decide)).trans (by decide)⟩

/-- Witness for C7 at a concrete valid fitness file. -/
theorem checkFile_checkListFile_witness :
    (checkFile fsC5 "a.fit" = true ↔
      fsC5.isFile "a.fit" = true ∧
        strLower (splitext "a.fit").2 ∈ VALID_GARMIN_FILE_EXTENSIONS) ∧
    (checkListFile fsC5 "a.fit" = true ↔
      strLower (splitext "a.fit").2 = ".csv" ∧ fsC5.isFile "a.fit" = true) :=
  checkFile_checkListFile_spec fsC5 "a.fit"

/-- Witness for C8: a directory holding one fitness file and one csv file
contributes only the fitness file. -/
theorem addDirFiles_spec_witness :
    addDirFiles fsD ["x.fit"] ["d"] = ["x.fit", "d/a.fit"] ∧
    checkFile fsD "d/list.csv" = false := by
  have h := addDirFiles_spec fsD ["x.fit"] ["d"]
  exact ⟨h.1.trans (by decide), h.2 "d" "list.csv" (by decide)⟩

/-- Witness for C10 at the activity-derived job of the mixed batch. -/
theorem typeOverride_spec_witness :
    (⟨"a.fit", some "X", none⟩ : workoutTuple).type = optsC5.activityType :=
  (typeOverride_spec fsC5 optsC5).1 ⟨"a.fit", some "X", none⟩ (by decide)

end Gupload
